import Mathlib

/-!
Verification development for the mediamtx concurrent relay core.

Shallow embedding of:
- the WebRTC server HTTP front-end and actor loop
  (core package: webRTCServer.run, webRTCServer.onRequest,
   webRTCServer.newConn / connClose / apiConnsList / apiConnsKick);
- the HLS fMP4 client processor
  (internal/hls/client_processor_fmp4.go);
- the playback muxer interface (internal/playback/muxer.go).

Go strings are embedded as Lean String, with strings.HasSuffix and slice
operations expressed over the character-list representation so that all
definitions evaluate inside the kernel.  Machine integers are embedded as
Nat / Int with explicit bounds or reductions modulo 2 ^ w where overflow
matters.
-/

/-- Go strings.HasSuffix, over the character-list representation. -/
def goHasSuffix (s suf : String) : Bool :=
  suf.data.isSuffixOf s.data

/-- Go slice expression s[:len(s)-n] for an ASCII string: drop the last
n characters. -/
def goDropRight (s : String) (n : Nat) : String :=
  ⟨s.data.take (s.data.length - n)⟩

/-- Go strings.TrimSuffix(s, suf): drop one trailing occurrence of suf. -/
def goTrimSuffix (s suf : String) : String :=
  if goHasSuffix s suf then goDropRight s suf.data.length else s

/-! ## Go select with a cancellation branch

Every cross-actor operation of the server and every blocking enqueue or
wait of the fMP4 processor is a two-branch Go select: one branch is the
channel operation, the other receives from the cancellation context.
The embedding makes the readiness of each branch explicit; when both
branches are ready Go picks nondeterministically, which is modelled by
the pick argument. -/

/-- Outcome of a two-branch Go select: the channel operation ran, the
cancellation branch ran, or neither branch was ready and the select
blocks. -/
inductive selectOutcome (α : Type) where
  | completed (a : α)
  | canceled
  | blocked
deriving DecidableEq

/-- Two-branch Go select: opReady says the channel operation has a ready
counterparty, ctxDone says the cancellation context fired, pick resolves
the nondeterministic choice when both are ready, a is the value carried
by the channel branch. -/
def goSelect2 {α : Type} (opReady ctxDone pick : Bool) (a : α) : selectOutcome α :=
  if opReady && ctxDone then (if pick then .completed a else .canceled)
  else if opReady then .completed a
  else if ctxDone then .canceled
  else .blocked

/-! ## WebRTC server data model (core package) -/

/-- Statistics of an established peer connection, as read by
webRTCServer.run through c.safePC(); the counters are uint64. -/
structure peerConnStats where
  localCandidate : String
  remoteCandidate : String
  bytesReceived : Nat
  bytesSent : Nat
deriving DecidableEq

/-- Connection record as used by the webRTCServer actor loop.
Modelled from the spec: webRTCConn itself is outside the given sources;
§3 Connection state gives the immutable identity (UUID, remote address,
created timestamp), and webRTCServer.run reads exactly c.uuid, c.created,
c.remoteAddr() and c.safePC() (nil when no peer connection is
established, embedded as Option). -/
structure webRTCConn where
  uuid : String
  created : Nat
  remoteAddr : String
  pc : Option peerConnStats
deriving DecidableEq

/-- Item of the conns/list API response (webRTCServerAPIConnsListItem). -/
structure webRTCServerAPIConnsListItem where
  created : Nat
  remoteAddr : String
  peerConnectionEstablished : Bool
  localCandidate : String
  remoteCandidate : String
  bytesReceived : Nat
  bytesSent : Nat
deriving DecidableEq

/-- Envelope of the conns/list API response; the Go map keyed by the
UUID string is embedded as an association list. -/
structure webRTCServerAPIConnsListData where
  items : List (String × webRTCServerAPIConnsListItem)
deriving DecidableEq

/-- Result of apiConnsList (webRTCServerAPIConnsListRes). -/
structure webRTCServerAPIConnsListRes where
  data : Option webRTCServerAPIConnsListData
  err : Option String
deriving DecidableEq

/-- Result of apiConnsKick (webRTCServerAPIConnsKickRes). -/
structure webRTCServerAPIConnsKickRes where
  err : Option String
deriving DecidableEq

/-- List item built by the chAPIConnsList case of webRTCServer.run for
one connection: the zero values are overridden only when safePC()
returns a peer connection. -/
def connListItem (c : webRTCConn) : webRTCServerAPIConnsListItem :=
  match c.pc with
  | none =>
    { created := c.created
      remoteAddr := c.remoteAddr
      peerConnectionEstablished := false
      localCandidate := ""
      remoteCandidate := ""
      bytesReceived := 0
      bytesSent := 0 }
  | some pc =>
    { created := c.created
      remoteAddr := c.remoteAddr
      peerConnectionEstablished := true
      localCandidate := pc.localCandidate
      remoteCandidate := pc.remoteCandidate
      bytesReceived := pc.bytesReceived
      bytesSent := pc.bytesSent }

/-- The chAPIConnsList case of webRTCServer.run: one item per tracked
connection, keyed by the UUID string. -/
def handleAPIConnsList (conns : List webRTCConn) : webRTCServerAPIConnsListData :=
  { items := conns.map (fun c => (c.uuid, connListItem c)) }

/-- First connection whose UUID string equals id, in iteration order
(the loop of the chAPIConnsKick case). -/
def kickFind : List webRTCConn → String → Option webRTCConn
  | [], _ => none
  | c :: cs, id => if c.uuid == id then some c else kickFind cs id

/-- Removal performed by the chAPIConnsKick case: the first connection
whose UUID string equals id is deleted from the set. -/
def kickRemove : List webRTCConn → String → List webRTCConn
  | [], _ => []
  | c :: cs, id => if c.uuid == id then cs else c :: kickRemove cs id

/-- Full effect of the chAPIConnsKick case of webRTCServer.run: the
reply sent on req.res, the remaining connection set, and the
connections that were closed by the handler. -/
structure KickOutcome where
  res : webRTCServerAPIConnsKickRes
  conns : List webRTCConn
  closed : List webRTCConn
deriving DecidableEq

/-- The chAPIConnsKick case of webRTCServer.run: scan the connection
set for the UUID; on a match delete that connection, close it and reply
ok; otherwise reply with a not-found error. -/
def handleAPIConnsKick (conns : List webRTCConn) (id : String) : KickOutcome :=
  match kickFind conns id with
  | some c => { res := { err := none }, conns := kickRemove conns id, closed := [c] }
  | none => { res := { err := some "not found" }, conns := conns, closed := [] }

/-! ## Caller-side request operations (select against ctx.Done)

Each operation sends on the server mailbox inside a select whose other
branch is s.ctx.Done(); opReady = false, ctxDone = true is the state
after the owning actor terminated (the run loop no longer receives and
the context is cancelled).  A blocked result is embedded as none; a
resolved call is some of the value the Go function returns. -/

/-- webRTCServer.newConn: send on s.connNew then receive the created
connection; on cancellation the function returns nil (none). -/
def newConnCall (opReady ctxDone pick : Bool) (reply : webRTCConn) :
    Option (Option webRTCConn) :=
  match goSelect2 opReady ctxDone pick reply with
  | .completed c => some (some c)
  | .canceled => some none
  | .blocked => none

/-- webRTCServer.connClose: send on s.chConnClose; on cancellation the
function just returns. -/
def connCloseCall (opReady ctxDone pick : Bool) : Option Unit :=
  match goSelect2 opReady ctxDone pick () with
  | .completed _ => some ()
  | .canceled => some ()
  | .blocked => none

/-- webRTCServer.apiConnsList: send on s.chAPIConnsList then receive the
reply; on cancellation the result carries the terminated error. -/
def apiConnsListCall (opReady ctxDone pick : Bool)
    (reply : webRTCServerAPIConnsListRes) : Option webRTCServerAPIConnsListRes :=
  match goSelect2 opReady ctxDone pick reply with
  | .completed r => some r
  | .canceled => some { data := none, err := some "terminated" }
  | .blocked => none

/-- webRTCServer.apiConnsKick: send on s.chAPIConnsKick then receive the
reply; on cancellation the result carries the terminated error. -/
def apiConnsKickCall (opReady ctxDone pick : Bool)
    (reply : webRTCServerAPIConnsKickRes) : Option webRTCServerAPIConnsKickRes :=
  match goSelect2 opReady ctxDone pick reply with
  | .completed r => some r
  | .canceled => some { err := some "terminated" }
  | .blocked => none

/-! ## webRTCServer.onRequest, GET branch

The handler strips the leading slash from the URL path, dispatches on
the path suffix, resolves the remaining directory against the path
manager (with the Basic credentials of the request) and renders the
result.  The path-manager call s.pathManager.getPathConf is outside the
given sources and is taken as an oracle parameter: it returns none on
success or one of the error kinds below. -/

/-- Error kinds returned by getPathConf, as distinguished by onRequest:
a pathErrAuth (carrying the wrapped error text that is only logged), or
any other error (such as a name matching no configuration). -/
inductive pathErrKind where
  | auth (wrapped : String)
  | other (msg : String)
deriving DecidableEq

/-- Client-visible outcome of the GET branch of onRequest. -/
inductive GetOutcome where
  | noResponse
  | movedPermanently (location : String)
  | unauthorizedChallenge
  | unauthorized
  | notFound
  | okPage (publishIndex : Bool)
  | wsHandling (pathName : String) (publish : Bool)
deriving DecidableEq

/-- Result of the suffix switch of onRequest on pa (the URL path with
the leading slash removed). -/
inductive dispatchResult where
  | handle (dir fname : String) (publish : Bool)
  | favicon
  | redirect (location : String)
deriving DecidableEq

/-- Suffix switch of onRequest (lines computing dir, fname, publish):
the default case redirects to the slash-terminated URL when dir does
not already end in a slash. -/
def getDispatch (pa : String) : dispatchResult :=
  if goHasSuffix pa "/publish/ws" then
    .handle (goDropRight pa "/publish/ws".data.length) "publish/ws" true
  else if goHasSuffix pa "/publish" then
    .handle (goDropRight pa "/publish".data.length) "publish" true
  else if goHasSuffix pa "/ws" then
    .handle (goDropRight pa "/ws".data.length) "ws" false
  else if pa == "favicon.ico" then
    .favicon
  else if !goHasSuffix pa "/" then
    .redirect ("/" ++ pa ++ "/")
  else
    .handle pa "" false

/-- HTTP status written for each outcome (none when the handler returns
without writing a status). -/
def statusOf : GetOutcome → Option Nat
  | .noResponse => none
  | .movedPermanently _ => some 301
  | .unauthorizedChallenge => some 401
  | .unauthorized => some 401
  | .notFound => some 404
  | .okPage _ => some 200
  | .wsHandling _ _ => none

/-- Response headers written for each outcome beyond the CORS headers
set for every request. -/
def headersOf : GetOutcome → List (String × String)
  | .movedPermanently loc => [("Location", loc)]
  | .unauthorizedChallenge => [("WWW-Authenticate", "Basic realm=\"mediamtx\"")]
  | _ => []

/-- Error branch of onRequest after getPathConf fails (res.err != nil):
a pathErrAuth with no credentials supplied yields the Basic challenge
and 401; a pathErrAuth with credentials yields a log line and a bare
401; any other error yields 404.  The first component is the
client-visible outcome, the second the server-side log lines. -/
def handlePathConfErr (hasCredentials : Bool) (e : pathErrKind) :
    GetOutcome × List String :=
  match e with
  | .auth wrapped =>
    if !hasCredentials then (.unauthorizedChallenge, [])
    else (.unauthorized, ["authentication error: " ++ wrapped])
  | .other _ => (.notFound, [])

/-- Continuation of onRequest after the suffix switch: trim a trailing
slash from dir, bail out on an empty name, consult getPathConf, render
errors through handlePathConfErr, otherwise serve the page or start the
websocket handling selected by fname. -/
def afterDispatch (dir fname : String) (publish hasCredentials : Bool)
    (getPathConf : String → Bool → Option pathErrKind) :
    GetOutcome × List String :=
  let dir := goTrimSuffix dir "/"
  if dir == "" then (.noResponse, [])
  else
    match getPathConf dir publish with
    | some e => handlePathConfErr hasCredentials e
    | none =>
      match fname with
      | "" => (.okPage false, [])
      | "publish" => (.okPage true, [])
      | "ws" => (.wsHandling dir false, [])
      | "publish/ws" => (.wsHandling dir true, [])
      | _ => (.noResponse, [])

/-- GET branch of webRTCServer.onRequest over pa, the URL path with the
leading slash removed; hasCredentials is the third result of
ctx.Request.BasicAuth(). -/
def onRequestGet (pa : String) (hasCredentials : Bool)
    (getPathConf : String → Bool → Option pathErrKind) :
    GetOutcome × List String :=
  match getDispatch pa with
  | .favicon => (.noResponse, [])
  | .redirect loc => (.movedPermanently loc, [])
  | .handle dir fname publish => afterDispatch dir fname publish hasCredentials getPathConf

/-! ## HLS fMP4 client processor (internal/hls/client_processor_fmp4.go)

State relevant to segment processing: the clockInitialized flag and the
startBaseTime recorded from the first observed subpart track.  Subpart
tracks are the fmp4.PartTrack values returned by fmp4.PartRead; the
fields read by the processor are the track ID and the uint64 BaseTime
(embedded as Nat, with uint64 arithmetic done modulo 2 ^ 64). -/

/-- Subpart track as consumed by clientProcessorFMP4.processSegment.
Modelled from the spec: fmp4.PartTrack is outside the given sources;
processSegment reads exactly its ID and its uint64 BaseTime. -/
structure fmp4PartTrack where
  id : Nat
  baseTime : Nat
deriving DecidableEq

/-- Clock fields of clientProcessorFMP4. -/
structure clientProcessorFMP4State where
  clockInitialized : Bool
  startBaseTime : Nat
deriving DecidableEq

/-- Go uint64 subtraction a - b, wrapping modulo 2 ^ 64. -/
def uint64Sub (a b : Nat) : Nat :=
  (a % 2 ^ 64 + (2 ^ 64 - b % 2 ^ 64)) % 2 ^ 64

/-- Clock-initialization step at the head of the processSegment loop:
on the first observed track the flag is raised and its BaseTime
recorded; afterwards the state is left untouched. -/
def initClock (st : clientProcessorFMP4State) (t : fmp4PartTrack) :
    clientProcessorFMP4State :=
  if st.clockInitialized then st
  else { clockInitialized := true, startBaseTime := t.baseTime }

/-- Condition p.initVideoTrack != nil && track.ID == p.initVideoTrack.ID
guarding the enqueue to the video track processor. -/
def isVideoTrackID (initVideoTrackID : Option Nat) (id : Nat) : Bool :=
  match initVideoTrackID with
  | some v => id == v
  | none => false

/-- Loop body of clientProcessorFMP4.processSegment over the subpart
tracks of one segment: returns the final clock state, the rebased form
of every observed track (track.BaseTime -= p.startBaseTime), and the
subsequence of rebased tracks enqueued to p.videoProc.queue.  No track
is ever enqueued to the audio processor. -/
def processSegmentLoop (initVideoTrackID : Option Nat) :
    clientProcessorFMP4State → List fmp4PartTrack →
    clientProcessorFMP4State × List fmp4PartTrack × List fmp4PartTrack
  | st, [] => (st, [], [])
  | st, t :: ts =>
    let st1 := initClock st t
    let t1 : fmp4PartTrack := { id := t.id, baseTime := uint64Sub t.baseTime st1.startBaseTime }
    let rest := processSegmentLoop initVideoTrackID st1 ts
    if isVideoTrackID initVideoTrackID t.id then
      (rest.1, t1 :: rest.2.1, t1 :: rest.2.2)
    else
      (rest.1, t1 :: rest.2.1, rest.2.2)

/-- Clock state after clientProcessorFMP4.run processes a sequence of
segments in order. -/
def processSegments (initVideoTrackID : Option Nat) :
    clientProcessorFMP4State → List (List fmp4PartTrack) →
    clientProcessorFMP4State
  | st, [] => st
  | st, seg :: segs =>
    processSegments initVideoTrackID (processSegmentLoop initVideoTrackID st seg).1 segs

/-- Data callback installed on the audio track processor in
newClientProcessorFMP4: its body is only a nil return.  The first
component lists the onAudioData invocations the callback performs, the
second is the returned error. -/
def audioTrackOnData (pts : Nat) (payload : List Nat) :
    List (Nat × List Nat) × Option String :=
  ([], none)

/-- Data callback installed on the video track processor in
newClientProcessorFMP4: AVCC-unmarshal the payload (the unmarshaller is
outside the given sources and is an oracle parameter), fail on an
unmarshal error, otherwise invoke onVideoData once with the NAL units.
The first component lists the onVideoData invocations. -/
def videoTrackOnData (avccUnmarshal : List Nat → Option (List (List Nat)))
    (pts : Nat) (payload : List Nat) :
    List (Nat × List (List Nat)) × Option String :=
  match avccUnmarshal payload with
  | none => ([], some "avcc unmarshal error")
  | some nalus => ([(pts, nalus)], none)

/-- Enqueue of a rebased track on p.videoProc.queue inside
processSegment, a select against ctx.Done(): on cancellation the
function returns the terminated error. -/
def enqueueTrackCall (opReady ctxDone pick : Bool) : Option (Option String) :=
  match goSelect2 opReady ctxDone pick () with
  | .completed _ => some none
  | .canceled => some (some "terminated")
  | .blocked => none

/-- Receive from p.subpartProcessed in the wait loop at the end of
processSegment, a select against ctx.Done(): on cancellation the
function returns the terminated error. -/
def waitSubpartCall (opReady ctxDone pick : Bool) : Option (Option String) :=
  match goSelect2 opReady ctxDone pick () with
  | .completed _ => some none
  | .canceled => some (some "terminated")
  | .blocked => none

/-- Send on p.subpartProcessed in onSubpartProcessed, a select against
ctx.Done(): the function returns either way. -/
def onSubpartProcessedCall (opReady ctxDone pick : Bool) : Option Unit :=
  match goSelect2 opReady ctxDone pick () with
  | .completed _ => some ()
  | .canceled => some ()
  | .blocked => none

/-! ## Playback muxer interface (internal/playback/muxer.go) -/

/-- Go int64, embedded as an Int with its two-complement bounds. -/
def GoInt64 := { i : Int // -(2 ^ 63) ≤ i ∧ i < 2 ^ 63 }
deriving DecidableEq

/-- Go int32, embedded as an Int with its two-complement bounds. -/
def GoInt32 := { i : Int // -(2 ^ 31) ≤ i ∧ i < 2 ^ 31 }
deriving DecidableEq

/-- Argument tuple of one writeSample call: dts int64, ptsOffset int32,
isNonSyncSample bool, payload bytes. -/
structure WriteSampleArgs where
  dts : GoInt64
  ptsOffset : GoInt32
  isNonSyncSample : Bool
  payload : List Nat

/-- The muxer interface of the playback package, over an abstract
implementation state σ: writeInit, setTrack, writeSample, writeFinalDTS
and flush, with the fallible operations returning Except. -/
structure muxer (σ : Type) where
  writeInit : σ → List Nat → σ
  setTrack : σ → Int → σ
  writeSample : σ → GoInt64 → GoInt32 → Bool → List Nat → Except String σ
  writeFinalDTS : σ → GoInt64 → σ
  flush : σ → Except String σ

/-- One sample written through the muxer interface: writeSample applied
to the components of the argument tuple. -/
def applyWriteSample {σ : Type} (m : muxer σ) (s : σ) (a : WriteSampleArgs) :
    Except String σ :=
  m.writeSample s a.dts a.ptsOffset a.isNonSyncSample a.payload

/-! ## Claims -/

/-- C2: every cross-actor request operation of the server (newConn,
connClose, apiConnsList, apiConnsKick) and every blocking enqueue or
wait of the fMP4 client processor is a select paired with the
cancellation signal: once the owning actor has terminated (no
counterparty on the mailbox, context fired) each call resolves — the
result is never the blocked outcome none — and it resolves with its
terminated result (nil for newConn, plain return for connClose and
onSubpartProcessed, the terminated error for the others), for either
resolution of the select nondeterminism. -/
theorem terminated_actor_ops_resolve :
    ∀ (pick : Bool) (c : webRTCConn) (r : webRTCServerAPIConnsListRes)
      (k : webRTCServerAPIConnsKickRes),
      newConnCall false true pick c = some none ∧
      connCloseCall false true pick = some () ∧
      apiConnsListCall false true pick r = some { data := none, err := some "terminated" } ∧
      apiConnsKickCall false true pick k = some { err := some "terminated" } ∧
      enqueueTrackCall false true pick = some (some "terminated") ∧
      waitSubpartCall false true pick = some (some "terminated") ∧
      onSubpartProcessedCall false true pick = some () := by
  intro pick c r k
  cases pick <;> exact ⟨rfl, rfl, rfl, rfl, rfl, rfl, rfl⟩

/-- C5 hyperproperty: two denied attach attempts are indistinguishable
to the requester — the client-visible outcome of the GET handler is the
same function of the credentials-present bit for any two wrapped
authentication errors (which differ only in the server-side log, the
second component). -/
theorem auth_denials_indistinguishable :
    ∀ (pa : String) (hasCredentials : Bool) (m1 m2 : String),
      (onRequestGet pa hasCredentials (fun _ _ => some (.auth m1))).1 =
      (onRequestGet pa hasCredentials (fun _ _ => some (.auth m2))).1 := by
  intro pa hc m1 m2
  unfold onRequestGet
  cases getDispatch pa with
  | favicon => rfl
  | redirect loc => rfl
  | handle dir fname publish =>
    unfold afterDispatch
    by_cases h : (goTrimSuffix dir "/" == "") = true
    · simp [h]
    · simp only [Bool.not_eq_true] at h
      simp only [h, Bool.false_eq_true, if_false]
      unfold handlePathConfErr
      cases hc <;> simp

/-- C1 counterexample: with credentials supplied, a denied request on a
configured path yields 401 while an unknown name yields 404, so the
response is not a not-found-equivalent code and does reveal the
existence of the path. -/
theorem credentialed_denial_not_404 :
    statusOf (onRequestGet "secure/" true
      (fun _ _ => some (.auth "invalid credentials"))).1 = some 401 ∧
    statusOf (onRequestGet "secure/" true
      (fun _ _ => some (.other "path not found"))).1 = some 404 ∧
    (some 401 : Option Nat) ≠ some 404 := by
  refine ⟨rfl, rfl, by decide⟩

/-- C1 as amended: on a denied GET with no Basic credentials the
response is 401 with the WWW-Authenticate Basic challenge; with
credentials supplied it is 401 without the challenge header (not a
not-found-equivalent code); an error other than authentication (a name
matching no configuration) yields 404; and on a configured path the GET
handler renders exactly these responses. -/
theorem onRequest_authorization_responses :
    ∀ (w m : String) (hc : Bool) (e : pathErrKind),
      handlePathConfErr false (.auth w) = (.unauthorizedChallenge, []) ∧
      statusOf .unauthorizedChallenge = some 401 ∧
      headersOf .unauthorizedChallenge =
        [("WWW-Authenticate", "Basic realm=\"mediamtx\"")] ∧
      handlePathConfErr true (.auth w) =
        (.unauthorized, ["authentication error: " ++ w]) ∧
      statusOf .unauthorized = some 401 ∧
      headersOf .unauthorized = [] ∧
      handlePathConfErr hc (.other m) = (.notFound, []) ∧
      statusOf .notFound = some 404 ∧
      onRequestGet "secure/" hc (fun _ _ => some e) = handlePathConfErr hc e := by
  intro w m hc e
  exact ⟨rfl, rfl, rfl, rfl, rfl, rfl, rfl, rfl, rfl⟩

/-- C10: a GET whose stripped path pa ends in none of /publish/ws,
/publish, /ws, is not favicon.ico and has no trailing slash is answered
with 301 Moved Permanently and a Location header naming the
slash-terminated URL, for every path-configuration oracle and whether
or not credentials are present — the redirect is decided before any
path resolution or authorization. -/
theorem get_redirects_to_slash_terminated :
    ∀ (pa : String) (hasCredentials : Bool)
      (getPathConf : String → Bool → Option pathErrKind),
      goHasSuffix pa "/publish/ws" = false →
      goHasSuffix pa "/publish" = false →
      goHasSuffix pa "/ws" = false →
      (pa == "favicon.ico") = false →
      goHasSuffix pa "/" = false →
      onRequestGet pa hasCredentials getPathConf =
        (.movedPermanently ("/" ++ pa ++ "/"), []) ∧
      statusOf (.movedPermanently ("/" ++ pa ++ "/")) = some 301 ∧
      headersOf (.movedPermanently ("/" ++ pa ++ "/")) =
        [("Location", "/" ++ pa ++ "/")] := by
  intro pa hc oracle h1 h2 h3 h4 h5
  refine ⟨?_, rfl, rfl⟩
  unfold onRequestGet getDispatch
  simp [h1, h2, h3, h4, h5]

/-- C10 witness at the concrete path mypath. -/
theorem get_redirects_witness :
    goHasSuffix "mypath" "/publish/ws" = false ∧
    goHasSuffix "mypath" "/publish" = false ∧
    goHasSuffix "mypath" "/ws" = false ∧
    ("mypath" == "favicon.ico") = false ∧
    goHasSuffix "mypath" "/" = false ∧
    onRequestGet "mypath" false (fun _ _ => none) =
      (.movedPermanently "/mypath/", []) := by
  have h := get_redirects_to_slash_terminated "mypath" false (fun _ _ => none)
    (by decide) (by decide) (by decide) (by decide) (by decide)
  exact ⟨by decide, by decide, by decide, by decide, by decide, h.1⟩

/-- Helper: when no tracked connection carries the UUID, the kick scan
finds nothing. -/
theorem kickFind_eq_none (conns : List webRTCConn) (id : String)
    (h : ∀ c ∈ conns, c.uuid ≠ id) : kickFind conns id = none := by
  induction conns with
  | nil => rfl
  | cons a rest ih =>
    have ha : (a.uuid == id) = false := by
      have := h a (List.mem_cons_self _ _)
      simp [this]
    simp only [kickFind, ha, Bool.false_eq_true, if_false]
    exact ih (fun c hc => h c (List.mem_cons_of_mem _ hc))

/-- Helper: with pairwise-distinct UUIDs, the kick scan finds the
member carrying the UUID and the removal equals erasing it. -/
theorem kickFind_remove_of_mem (conns : List webRTCConn) (c : webRTCConn)
    (id : String) (hc : c ∈ conns) (hid : c.uuid = id)
    (nd : (conns.map webRTCConn.uuid).Nodup) :
    kickFind conns id = some c ∧ kickRemove conns id = conns.erase c := by
  induction conns with
  | nil => cases hc
  | cons a rest ih =>
    simp only [List.map_cons, List.nodup_cons] at nd
    by_cases hac : (a.uuid == id) = true
    · have haid : a.uuid = id := by simpa using hac
      have hca : c = a := by
        rcases List.mem_cons.mp hc with h | h
        · exact h
        · exfalso
          exact nd.1 (haid ▸ hid ▸ List.mem_map_of_mem webRTCConn.uuid h)
      subst hca
      constructor
      · simp [kickFind, hac]
      · simp [kickRemove, hac, List.erase_cons_head]
    · have haid : a.uuid ≠ id := by simpa using hac
      have hcr : c ∈ rest := by
        rcases List.mem_cons.mp hc with h | h
        · exact absurd (h ▸ hid) haid
        · exact h
      have hne : a ≠ c := fun h => haid (h ▸ hid)
      obtain ⟨hf, hr⟩ := ih hcr nd.2
      constructor
      · simp [kickFind, hac, hf]
      · simp [kickRemove, hac, hr, List.erase_cons_tail, hne]

/-- C3: kicking an id carried by no tracked connection (including one
already kicked) replies not-found and leaves the connection set
unchanged; kicking an id carried by a tracked connection removes
exactly that connection and closes it (UUIDs are pairwise distinct), so
a second kick of the same id replies not-found and changes nothing. -/
theorem apiConnsKick_spec :
    ∀ (conns : List webRTCConn) (id : String),
      ((∀ c ∈ conns, c.uuid ≠ id) →
        handleAPIConnsKick conns id =
          { res := { err := some "not found" }, conns := conns, closed := [] }) ∧
      (∀ c, c ∈ conns → c.uuid = id → (conns.map webRTCConn.uuid).Nodup →
        (handleAPIConnsKick conns id).res.err = none ∧
        (handleAPIConnsKick conns id).closed = [c] ∧
        (handleAPIConnsKick conns id).conns.length + 1 = conns.length ∧
        c ∉ (handleAPIConnsKick conns id).conns ∧
        (∀ d ∈ conns, d ≠ c → d ∈ (handleAPIConnsKick conns id).conns) ∧
        handleAPIConnsKick (handleAPIConnsKick conns id).conns id =
          { res := { err := some "not found" },
            conns := (handleAPIConnsKick conns id).conns, closed := [] }) := by
  intro conns id
  constructor
  · intro h
    simp [handleAPIConnsKick, kickFind_eq_none conns id h]
  · intro c hc hid nd
    obtain ⟨hf, hr⟩ := kickFind_remove_of_mem conns c id hc hid nd
    have hres : handleAPIConnsKick conns id =
        { res := { err := none }, conns := conns.erase c, closed := [c] } := by
      simp [handleAPIConnsKick, hf, hr]
    have ndl : conns.Nodup := nd.of_map
    have herase_no_id : ∀ d ∈ conns.erase c, d.uuid ≠ id := by
      intro d hd
      have hmem := (ndl.mem_erase_iff.mp hd)
      intro hdid
      have : d = c :=
        List.inj_on_of_nodup_map nd hmem.2 hc (by rw [hdid, hid])
      exact hmem.1 this
    refine ⟨by rw [hres], by rw [hres], ?_, ?_, ?_, ?_⟩
    · rw [hres]
      have hlen := List.length_erase_of_mem hc
      have hpos : 0 < conns.length := List.length_pos_of_mem hc
      simp only [hlen]
      omega
    · rw [hres]
      exact fun h => (ndl.mem_erase_iff.mp h).1 rfl
    · intro d hd hdc
      rw [hres]
      exact (List.mem_erase_of_ne hdc).mpr hd
    · rw [hres]
      simp only
      simp [handleAPIConnsKick, kickFind_eq_none _ id herase_no_id]

/-- C3 witness: kicking a tracked UUID removes and closes exactly that
connection, and the repeated kick replies not-found. -/
theorem apiConnsKick_witness :
    (handleAPIConnsKick
      [({ uuid := "a", created := 1, remoteAddr := "r1", pc := none } : webRTCConn),
       { uuid := "b", created := 2, remoteAddr := "r2", pc := none }] "a").res.err = none ∧
    (handleAPIConnsKick
      [({ uuid := "a", created := 1, remoteAddr := "r1", pc := none } : webRTCConn),
       { uuid := "b", created := 2, remoteAddr := "r2", pc := none }] "a").closed =
      [{ uuid := "a", created := 1, remoteAddr := "r1", pc := none }] ∧
    handleAPIConnsKick
      (handleAPIConnsKick
        [({ uuid := "a", created := 1, remoteAddr := "r1", pc := none } : webRTCConn),
         { uuid := "b", created := 2, remoteAddr := "r2", pc := none }] "a").conns "a" =
      { res := { err := some "not found" },
        conns := (handleAPIConnsKick
          [({ uuid := "a", created := 1, remoteAddr := "r1", pc := none } : webRTCConn),
           { uuid := "b", created := 2, remoteAddr := "r2", pc := none }] "a").conns,
        closed := [] } := by
  have h := (apiConnsKick_spec
    [({ uuid := "a", created := 1, remoteAddr := "r1", pc := none } : webRTCConn),
     { uuid := "b", created := 2, remoteAddr := "r2", pc := none }] "a").2
    { uuid := "a", created := 1, remoteAddr := "r1", pc := none }
    (by decide) (by decide) (by decide)
  exact ⟨h.1, h.2.1, h.2.2.2.2.2⟩

/-- C7: the conns/list handler returns, for every tracked connection,
an item keyed by its UUID carrying its created timestamp, remote
address and byte counters, and a connection with no established peer
connection reports zero bytes in both directions and
peerConnectionEstablished false. -/
theorem apiConnsList_spec :
    ∀ (conns : List webRTCConn) (c : webRTCConn), c ∈ conns →
      (c.uuid, connListItem c) ∈ (handleAPIConnsList conns).items ∧
      (connListItem c).created = c.created ∧
      (connListItem c).remoteAddr = c.remoteAddr ∧
      (∀ pc, c.pc = some pc →
        (connListItem c).bytesReceived = pc.bytesReceived ∧
        (connListItem c).bytesSent = pc.bytesSent) ∧
      (c.pc = none →
        (connListItem c).bytesReceived = 0 ∧
        (connListItem c).bytesSent = 0 ∧
        (connListItem c).peerConnectionEstablished = false) := by
  intro conns c hc
  refine ⟨List.mem_map_of_mem _ hc, ?_, ?_, ?_, ?_⟩
  · rcases hp : c.pc with _ | pc <;> simp [connListItem, hp]
  · rcases hp : c.pc with _ | pc <;> simp [connListItem, hp]
  · intro pc hp
    simp [connListItem, hp]
  · intro hp
    simp [connListItem, hp]

/-- C7 witness: a fresh connection with no peer connection yields an
item with zero counters keyed by its UUID. -/
theorem apiConnsList_witness :
    (("u1", connListItem { uuid := "u1", created := 7, remoteAddr := "r", pc := none }) ∈
      (handleAPIConnsList
        [({ uuid := "u1", created := 7, remoteAddr := "r", pc := none } : webRTCConn)]).items) ∧
    (connListItem
      { uuid := "u1", created := 7, remoteAddr := "r", pc := none }).bytesReceived = 0 ∧
    (connListItem
      { uuid := "u1", created := 7, remoteAddr := "r", pc := none }).bytesSent = 0 ∧
    (connListItem
      { uuid := "u1", created := 7, remoteAddr := "r", pc := none }).peerConnectionEstablished
      = false := by
  have h := apiConnsList_spec
    [({ uuid := "u1", created := 7, remoteAddr := "r", pc := none } : webRTCConn)]
    { uuid := "u1", created := 7, remoteAddr := "r", pc := none } (by decide)
  have hz := h.2.2.2.2 rfl
  exact ⟨h.1, hz.1, hz.2.1, hz.2.2⟩

/-- Helper: once the clock is initialized, the processSegment loop
leaves the clock state untouched, rebases every observed track by the
recorded startBaseTime, and enqueues exactly the rebased tracks whose
ID is the video init-track ID. -/
theorem processSegmentLoop_initialized (vid : Option Nat) (s : Nat) :
    ∀ ts : List fmp4PartTrack,
      processSegmentLoop vid { clockInitialized := true, startBaseTime := s } ts =
      ({ clockInitialized := true, startBaseTime := s },
       ts.map (fun t => { id := t.id, baseTime := uint64Sub t.baseTime s }),
       (ts.map (fun t => ({ id := t.id, baseTime := uint64Sub t.baseTime s } : fmp4PartTrack))).filter
         (fun t => isVideoTrackID vid t.id)) := by
  intro ts
  induction ts with
  | nil => rfl
  | cons t ts ih =>
    simp only [processSegmentLoop, initClock, if_true, ih, List.map_cons, List.filter]
    cases h : isVideoTrackID vid t.id <;> simp [h]

/-- C4: starting uninitialized, the base timestamp of the first
observed track becomes the zero point — after the first segment the
clock is initialized with startBaseTime equal to the first track
BaseTime, every observed track is replaced by its delta from that value
(uint64 subtraction), and once initialized any further tracks or
segments leave the recorded value untouched while still being rebased
by it — so the clock is recorded exactly once. -/
theorem clock_initialized_once_and_rebase :
    ∀ (vid : Option Nat) (t0 : fmp4PartTrack) (ts : List fmp4PartTrack),
      (processSegmentLoop vid { clockInitialized := false, startBaseTime := 0 }
        (t0 :: ts)).1 =
        { clockInitialized := true, startBaseTime := t0.baseTime } ∧
      (processSegmentLoop vid { clockInitialized := false, startBaseTime := 0 }
        (t0 :: ts)).2.1 =
        (t0 :: ts).map
          (fun t => { id := t.id, baseTime := uint64Sub t.baseTime t0.baseTime }) ∧
      (∀ (s : Nat) (ts2 : List fmp4PartTrack),
        (processSegmentLoop vid { clockInitialized := true, startBaseTime := s } ts2).1 =
          { clockInitialized := true, startBaseTime := s }) ∧
      (∀ (s : Nat) (ts2 : List fmp4PartTrack),
        (processSegmentLoop vid { clockInitialized := true, startBaseTime := s } ts2).2.1 =
          ts2.map (fun t => { id := t.id, baseTime := uint64Sub t.baseTime s })) ∧
      (∀ (s : Nat) (segs : List (List fmp4PartTrack)),
        processSegments vid { clockInitialized := true, startBaseTime := s } segs =
          { clockInitialized := true, startBaseTime := s }) := by
  intro vid t0 ts
  have hseg : ∀ (s : Nat) (segs : List (List fmp4PartTrack)),
      processSegments vid { clockInitialized := true, startBaseTime := s } segs =
        { clockInitialized := true, startBaseTime := s } := by
    intro s segs
    induction segs with
    | nil => rfl
    | cons seg segs ih =>
      simp [processSegments, processSegmentLoop_initialized, ih]
  refine ⟨?_, ?_, ?_, ?_, hseg⟩
  · simp only [processSegmentLoop, initClock]
    cases h : isVideoTrackID vid t0.id <;>
      simp [h, processSegmentLoop_initialized]
  · simp only [processSegmentLoop, initClock]
    cases h : isVideoTrackID vid t0.id <;>
      simp [h, processSegmentLoop_initialized]
  · intro s ts2
    simp [processSegmentLoop_initialized]
  · intro s ts2
    simp [processSegmentLoop_initialized]

/-- C9: the rebasing subtraction wraps modulo 2 ^ 64 — a track whose
BaseTime is smaller than the recorded startBaseTime is rebased to
2 ^ 64 + BaseTime - startBaseTime rather than failing or saturating at
zero, and that is what the processSegment loop stores. -/
theorem rebasing_wraps_uint64 :
    ∀ (b s : Nat), b < s → s < 2 ^ 64 →
      uint64Sub b s = 2 ^ 64 + b - s ∧
      uint64Sub b s ≠ 0 ∧
      ∀ (vid : Option Nat) (id : Nat),
        (processSegmentLoop vid { clockInitialized := true, startBaseTime := s }
          [{ id := id, baseTime := b }]).2.1 =
          [{ id := id, baseTime := 2 ^ 64 + b - s }] := by
  intro b s hbs hs
  have hb : b < 2 ^ 64 := lt_trans hbs hs
  have h1 : uint64Sub b s = 2 ^ 64 + b - s := by
    unfold uint64Sub
    rw [Nat.mod_eq_of_lt hb, Nat.mod_eq_of_lt hs,
      Nat.mod_eq_of_lt (by omega : b + (2 ^ 64 - s) < 2 ^ 64)]
    omega
  refine ⟨h1, by omega, ?_⟩
  intro vid id
  simp [processSegmentLoop_initialized, h1]

/-- C9 witness at BaseTime 5 against startBaseTime 10. -/
theorem rebasing_wraps_witness :
    uint64Sub 5 10 = 2 ^ 64 + 5 - 10 ∧ uint64Sub 5 10 ≠ 0 :=
  ⟨(rebasing_wraps_uint64 5 10 (by decide) (by decide)).1,
   (rebasing_wraps_uint64 5 10 (by decide) (by decide)).2.1⟩

/-- Helper: every track the processSegment loop enqueues to the video
processor carries the video init-track ID. -/
theorem mem_videoQueue_id (vid : Nat) :
    ∀ (ts : List fmp4PartTrack) (st : clientProcessorFMP4State) (t : fmp4PartTrack),
      t ∈ (processSegmentLoop (some vid) st ts).2.2 → t.id = vid := by
  intro ts
  induction ts with
  | nil =>
    intro st t h
    simp [processSegmentLoop] at h
  | cons a as ih =>
    intro st t h
    simp only [processSegmentLoop] at h
    cases hv : isVideoTrackID (some vid) a.id with
    | true =>
      simp only [hv, if_true] at h
      rcases List.mem_cons.mp h with h | h
      · have : (a.id == vid) = true := by simpa [isVideoTrackID] using hv
        simp [h]
        simpa using this
      · exact ih _ t h
    | false =>
      simp only [hv, Bool.false_eq_true, if_false] at h
      exact ih _ t h

/-- Helper: with no video init track nothing is enqueued. -/
theorem videoQueue_none :
    ∀ (ts : List fmp4PartTrack) (st : clientProcessorFMP4State),
      (processSegmentLoop none st ts).2.2 = [] := by
  intro ts
  induction ts with
  | nil => intro st; rfl
  | cons a as ih =>
    intro st
    simp only [processSegmentLoop, isVideoTrackID]
    simpa using ih _

/-- C8: only subpart tracks whose ID equals the video init-track ID are
forwarded to a track processor (none at all without a video init
track); any track with a different ID — in particular an audio subpart
— is never enqueued; and the audio processor data callback performs no
onAudioData invocation and returns nil on every input. -/
theorem audio_discarded_video_forwarded :
    (∀ (vid : Nat) (st : clientProcessorFMP4State) (ts : List fmp4PartTrack)
        (t : fmp4PartTrack),
      t ∈ (processSegmentLoop (some vid) st ts).2.2 → t.id = vid) ∧
    (∀ (st : clientProcessorFMP4State) (ts : List fmp4PartTrack),
      (processSegmentLoop none st ts).2.2 = []) ∧
    (∀ (aid vid : Nat), aid ≠ vid →
      ∀ (st : clientProcessorFMP4State) (ts : List fmp4PartTrack) (t : fmp4PartTrack),
        t ∈ (processSegmentLoop (some vid) st ts).2.2 → t.id ≠ aid) ∧
    (∀ (pts : Nat) (payload : List Nat), audioTrackOnData pts payload = ([], none)) := by
  refine ⟨fun vid st ts t h => mem_videoQueue_id vid ts st t h,
    fun st ts => videoQueue_none ts st, ?_, fun _ _ => rfl⟩
  intro aid vid hne st ts t h
  rw [mem_videoQueue_id vid ts st t h]
  exact fun hav => hne hav.symm

/-- C8 witness: the enqueued rebased video subpart (ID 1) of a segment
holding a video subpart and an audio subpart carries the video ID and
not the audio ID. -/
theorem audio_discarded_witness :
    (⟨1, 0⟩ : fmp4PartTrack).id = 1 ∧ (⟨1, 0⟩ : fmp4PartTrack).id ≠ 2 := by
  constructor
  · exact audio_discarded_video_forwarded.1 1
      { clockInitialized := false, startBaseTime := 0 } [⟨1, 10⟩, ⟨2, 20⟩] ⟨1, 0⟩
      (by decide)
  · exact audio_discarded_video_forwarded.2.2.1 2 1 (by decide)
      { clockInitialized := false, startBaseTime := 0 } [⟨1, 10⟩, ⟨2, 20⟩] ⟨1, 0⟩
      (by decide)

/-- C6: every sample written through the muxer interface carries a dts
within the signed 64-bit range and a ptsOffset within the signed 32-bit
range; every 63-bit unsigned value is an admissible dts; a non-negative
dts is exactly a 63-bit unsigned quantity; and writeSample consumes
precisely the components of the argument tuple. -/
theorem writeSample_types :
    (∀ a : WriteSampleArgs,
      (-(2 ^ 63) ≤ a.dts.val ∧ a.dts.val < 2 ^ 63) ∧
      (-(2 ^ 31) ≤ a.ptsOffset.val ∧ a.ptsOffset.val < 2 ^ 31)) ∧
    (∀ n : Nat, (n : Int) < 2 ^ 63 →
      ∃ a : WriteSampleArgs, a.dts.val = (n : Int) ∧ 0 ≤ a.dts.val) ∧
    (∀ a : WriteSampleArgs, 0 ≤ a.dts.val → a.dts.val.toNat < 2 ^ 63) ∧
    (∀ (σ : Type) (m : muxer σ) (s : σ) (a : WriteSampleArgs),
      applyWriteSample m s a =
        m.writeSample s a.dts a.ptsOffset a.isNonSyncSample a.payload) := by
  refine ⟨fun a => ⟨a.dts.property, a.ptsOffset.property⟩, ?_, ?_, fun _ _ _ _ => rfl⟩
  · intro n hn
    have h0 : (0 : Int) ≤ (n : Int) := Int.natCast_nonneg n
    have hlo : -(2 ^ 63 : Int) ≤ (n : Int) := by omega
    have plo : -(2 ^ 31 : Int) ≤ (0 : Int) := by norm_num
    have phi : (0 : Int) < 2 ^ 31 := by norm_num
    exact ⟨{ dts := ⟨(n : Int), hlo, hn⟩,
             ptsOffset := ⟨0, plo, phi⟩,
             isNonSyncSample := false,
             payload := [] }, rfl, h0⟩
  · intro a ha
    have hlt := a.dts.property.2
    omega

/-- C6 witness: the 63-bit unsigned value 42 is an admissible dts. -/
theorem writeSample_types_witness :
    ∃ a : WriteSampleArgs, a.dts.val = ((42 : Nat) : Int) ∧ 0 ≤ a.dts.val :=
  writeSample_types.2.1 42 (by norm_num)
